import Mathlib

/-!
Verification of the photo-to-paper layout engine of pyprintpreview.py.

The geometry computation appears twice in the source, once in
PhotoPreview.update_preview (lines 246-327) and once in
PhotoPreview.get_print_pixmap (lines 356-417).  Both blocks decide a 90
degree rotation for landscape images, swap the working canvas dimensions
when rotating, compare the image aspect ratio against the working canvas
aspect ratio, and derive a scaled size and centering offsets.

Modelling conventions: Python floats are modelled as exact rationals; a
Python float division raises ZeroDivisionError on a zero divisor, which is
modelled with an explicit guard returning an error value.  The Python
builtin int() truncates toward zero and is modelled by py_int.  The Python
integer floor division a // 2 is Int.fdiv a 2.
-/

namespace PyPrintPreview

/-- Failure a Python division raises when its divisor is zero.  The source
contains no other failure path in the layout computation. -/
inductive PyError where
  | zeroDivisionError
deriving DecidableEq, Repr

/-- The two placement policies, source values of self.scale_mode. -/
inductive ScaleMode where
  | fill
  | fit
deriving DecidableEq, Repr

/-- Output of the scale-computation block alone: scaled size and offsets,
all integers as in the source. -/
structure ScaledGeometry where
  scaled_w : ℤ
  scaled_h : ℤ
  x_offset : ℤ
  y_offset : ℤ
deriving DecidableEq, Repr

/-- Full placement geometry: rotation decision plus the scaled size and
offsets, expressed in working-canvas coordinates. -/
structure Geometry where
  rotate_image_90 : Bool
  scaled_w : ℤ
  scaled_h : ℤ
  x_offset : ℤ
  y_offset : ℤ
deriving DecidableEq, Repr

/-- Python builtin int() on a float: truncation toward zero. -/
def py_int (q : ℚ) : ℤ := if 0 ≤ q then ⌊q⌋ else ⌈q⌉

/-- Scale-computation block, identical in update_preview (lines 289-327)
and get_print_pixmap (lines 390-417): given image dimensions and the
working paper dimensions, compare aspect ratios and derive scaled size and
centering offsets.  Fill mode crops on one axis, fit mode leaves a border
on one axis.  Each guard models the ZeroDivisionError a Python float
division raises on a zero divisor, in source evaluation order. -/
def calc_scaling (img_width img_height paper_w paper_h : ℤ) (mode : ScaleMode) :
    Except PyError ScaledGeometry :=
  if img_height = 0 then .error .zeroDivisionError else
  if paper_h = 0 then .error .zeroDivisionError else
  let img_aspect : ℚ := (img_width : ℚ) / (img_height : ℚ)
  let paper_aspect : ℚ := (paper_w : ℚ) / (paper_h : ℚ)
  match mode with
  | .fill =>
      if img_aspect > paper_aspect then
        let scale : ℚ := (paper_h : ℚ) / (img_height : ℚ)
        let scaled_w : ℤ := py_int ((img_width : ℚ) * scale)
        .ok ⟨scaled_w, paper_h, Int.fdiv (paper_w - scaled_w) 2, 0⟩
      else
        if img_width = 0 then .error .zeroDivisionError else
        let scale : ℚ := (paper_w : ℚ) / (img_width : ℚ)
        let scaled_h : ℤ := py_int ((img_height : ℚ) * scale)
        .ok ⟨paper_w, scaled_h, 0, Int.fdiv (paper_h - scaled_h) 2⟩
  | .fit =>
      if img_aspect > paper_aspect then
        if img_width = 0 then .error .zeroDivisionError else
        let scale : ℚ := (paper_w : ℚ) / (img_width : ℚ)
        let scaled_h : ℤ := py_int ((img_height : ℚ) * scale)
        .ok ⟨paper_w, scaled_h, 0, Int.fdiv (paper_h - scaled_h) 2⟩
      else
        let scale : ℚ := (paper_h : ℚ) / (img_height : ℚ)
        let scaled_w : ℤ := py_int ((img_width : ℚ) * scale)
        .ok ⟨scaled_w, paper_h, Int.fdiv (paper_w - scaled_w) 2, 0⟩

/-- Working canvas width after the orientation swap of lines 378-384 and
277-283: the canvas height when the image is landscape, else the width. -/
def working_w (img_width img_height paper_w paper_h : ℤ) : ℤ :=
  if img_width > img_height then paper_h else paper_w

/-- Working canvas height after the orientation swap: the canvas width
when the image is landscape, else the height. -/
def working_h (img_width img_height paper_w paper_h : ℤ) : ℤ :=
  if img_width > img_height then paper_w else paper_h

/-- Placement geometry of get_print_pixmap, lines 356-417, generalized
over the paper dimensions the method binds to 1200 x 1800: landscape
detection (line 358), working dimension swap (lines 378-384), aspect
comparison and per-mode scaling (lines 386-417). -/
def get_print_pixmap_geom (img_width img_height paper_w paper_h : ℤ) (mode : ScaleMode) :
    Except PyError Geometry :=
  let img_is_landscape : Bool := decide (img_width > img_height)
  let working_paper_w : ℤ := if img_width > img_height then paper_h else paper_w
  let working_paper_h : ℤ := if img_width > img_height then paper_w else paper_h
  if img_height = 0 then .error .zeroDivisionError else
  if working_paper_h = 0 then .error .zeroDivisionError else
  let img_aspect : ℚ := (img_width : ℚ) / (img_height : ℚ)
  let paper_aspect : ℚ := (working_paper_w : ℚ) / (working_paper_h : ℚ)
  match mode with
  | .fill =>
      if img_aspect > paper_aspect then
        let scale : ℚ := (working_paper_h : ℚ) / (img_height : ℚ)
        let scaled_w : ℤ := py_int ((img_width : ℚ) * scale)
        .ok ⟨img_is_landscape, scaled_w, working_paper_h,
             Int.fdiv (working_paper_w - scaled_w) 2, 0⟩
      else
        if img_width = 0 then .error .zeroDivisionError else
        let scale : ℚ := (working_paper_w : ℚ) / (img_width : ℚ)
        let scaled_h : ℤ := py_int ((img_height : ℚ) * scale)
        .ok ⟨img_is_landscape, working_paper_w, scaled_h, 0,
             Int.fdiv (working_paper_h - scaled_h) 2⟩
  | .fit =>
      if img_aspect > paper_aspect then
        if img_width = 0 then .error .zeroDivisionError else
        let scale : ℚ := (working_paper_w : ℚ) / (img_width : ℚ)
        let scaled_h : ℤ := py_int ((img_height : ℚ) * scale)
        .ok ⟨img_is_landscape, working_paper_w, scaled_h, 0,
             Int.fdiv (working_paper_h - scaled_h) 2⟩
      else
        let scale : ℚ := (working_paper_h : ℚ) / (img_height : ℚ)
        let scaled_w : ℤ := py_int ((img_width : ℚ) * scale)
        .ok ⟨img_is_landscape, scaled_w, working_paper_h,
             Int.fdiv (working_paper_w - scaled_w) 2, 0⟩

/-- Placement geometry of update_preview, lines 246-327, generalized over
the preview paper size computed from the widget (lines 255-264): landscape
detection (line 249), dimension swap for calculation (lines 277-283),
aspect comparison and per-mode scaling (lines 285-327).  The source names
the swapped dimensions paper_w and paper_h in place; paper_w0 and paper_h0
here are their values before the swap. -/
def update_preview_geom (img_width img_height paper_w0 paper_h0 : ℤ) (mode : ScaleMode) :
    Except PyError Geometry :=
  let img_is_landscape : Bool := decide (img_width > img_height)
  let paper_w : ℤ := if img_width > img_height then paper_h0 else paper_w0
  let paper_h : ℤ := if img_width > img_height then paper_w0 else paper_h0
  if img_height = 0 then .error .zeroDivisionError else
  if paper_h = 0 then .error .zeroDivisionError else
  let img_aspect : ℚ := (img_width : ℚ) / (img_height : ℚ)
  let paper_calc_aspect : ℚ := (paper_w : ℚ) / (paper_h : ℚ)
  match mode with
  | .fill =>
      if img_aspect > paper_calc_aspect then
        let scale : ℚ := (paper_h : ℚ) / (img_height : ℚ)
        let scaled_w : ℤ := py_int ((img_width : ℚ) * scale)
        .ok ⟨img_is_landscape, scaled_w, paper_h, Int.fdiv (paper_w - scaled_w) 2, 0⟩
      else
        if img_width = 0 then .error .zeroDivisionError else
        let scale : ℚ := (paper_w : ℚ) / (img_width : ℚ)
        let scaled_h : ℤ := py_int ((img_height : ℚ) * scale)
        .ok ⟨img_is_landscape, paper_w, scaled_h, 0, Int.fdiv (paper_h - scaled_h) 2⟩
  | .fit =>
      if img_aspect > paper_calc_aspect then
        if img_width = 0 then .error .zeroDivisionError else
        let scale : ℚ := (paper_w : ℚ) / (img_width : ℚ)
        let scaled_h : ℤ := py_int ((img_height : ℚ) * scale)
        .ok ⟨img_is_landscape, paper_w, scaled_h, 0, Int.fdiv (paper_h - scaled_h) 2⟩
      else
        let scale : ℚ := (paper_h : ℚ) / (img_height : ℚ)
        let scaled_w : ℤ := py_int ((img_width : ℚ) * scale)
        .ok ⟨img_is_landscape, scaled_w, paper_h, Int.fdiv (paper_w - scaled_w) 2, 0⟩

/-! Helper lemmas about py_int. -/

lemma py_int_of_nonneg (q : ℚ) (h : 0 ≤ q) : py_int q = ⌊q⌋ := if_pos h

lemma py_int_eq (q : ℚ) (n : ℤ) (h0 : 0 ≤ q) (h1 : (n : ℚ) ≤ q) (h2 : q < n + 1) :
    py_int q = n := by
  rw [py_int_of_nonneg q h0]
  exact Int.floor_eq_iff.mpr ⟨h1, h2⟩

lemma py_int_intCast (n : ℤ) : py_int (n : ℚ) = n := by
  unfold py_int
  split_ifs
  · exact Int.floor_intCast n
  · exact Int.ceil_intCast n

lemma py_int_neg_eq (q : ℚ) (n : ℤ) (h0 : ¬ 0 ≤ q) (h1 : (n : ℚ) - 1 < q) (h2 : q ≤ n) :
    py_int q = n := by
  unfold py_int
  rw [if_neg h0]
  exact Int.ceil_eq_iff.mpr ⟨h1, h2⟩

/-! Branch characterizations of calc_scaling. -/

lemma calc_fill_wide (iw ih pw ph : ℤ) (hih : ih ≠ 0) (hph : ph ≠ 0)
    (hb : (iw : ℚ) / ih > (pw : ℚ) / ph) :
    calc_scaling iw ih pw ph .fill =
      .ok ⟨py_int ((iw : ℚ) * ((ph : ℚ) / (ih : ℚ))), ph,
           Int.fdiv (pw - py_int ((iw : ℚ) * ((ph : ℚ) / (ih : ℚ)))) 2, 0⟩ := by
  simp only [calc_scaling, if_neg hih, if_neg hph, if_pos hb]

lemma calc_fill_tall (iw ih pw ph : ℤ) (hih : ih ≠ 0) (hph : ph ≠ 0) (hiw : iw ≠ 0)
    (hb : ¬ ((iw : ℚ) / ih > (pw : ℚ) / ph)) :
    calc_scaling iw ih pw ph .fill =
      .ok ⟨pw, py_int ((ih : ℚ) * ((pw : ℚ) / (iw : ℚ))), 0,
           Int.fdiv (ph - py_int ((ih : ℚ) * ((pw : ℚ) / (iw : ℚ)))) 2⟩ := by
  simp only [calc_scaling, if_neg hih, if_neg hph, if_neg hb, if_neg hiw]

lemma calc_fit_wide (iw ih pw ph : ℤ) (hih : ih ≠ 0) (hph : ph ≠ 0) (hiw : iw ≠ 0)
    (hb : (iw : ℚ) / ih > (pw : ℚ) / ph) :
    calc_scaling iw ih pw ph .fit =
      .ok ⟨pw, py_int ((ih : ℚ) * ((pw : ℚ) / (iw : ℚ))), 0,
           Int.fdiv (ph - py_int ((ih : ℚ) * ((pw : ℚ) / (iw : ℚ)))) 2⟩ := by
  simp only [calc_scaling, if_neg hih, if_neg hph, if_pos hb, if_neg hiw]

lemma calc_fit_tall (iw ih pw ph : ℤ) (hih : ih ≠ 0) (hph : ph ≠ 0)
    (hb : ¬ ((iw : ℚ) / ih > (pw : ℚ) / ph)) :
    calc_scaling iw ih pw ph .fit =
      .ok ⟨py_int ((iw : ℚ) * ((ph : ℚ) / (ih : ℚ))), ph,
           Int.fdiv (pw - py_int ((iw : ℚ) * ((ph : ℚ) / (ih : ℚ)))) 2, 0⟩ := by
  simp only [calc_scaling, if_neg hih, if_neg hph, if_neg hb]

/-- The print-path geometry is the scale computation at the swapped working
dimensions, with the rotation flag attached. -/
lemma get_print_eq_calc (iw ih pw ph : ℤ) (m : ScaleMode) :
    get_print_pixmap_geom iw ih pw ph m =
      Except.map
        (fun s => ⟨decide (iw > ih), s.scaled_w, s.scaled_h, s.x_offset, s.y_offset⟩)
        (calc_scaling iw ih (working_w iw ih pw ph) (working_h iw ih pw ph) m) := by
  cases m <;>
    simp only [get_print_pixmap_geom, calc_scaling, working_w, working_h] <;>
    split_ifs <;> rfl

/-! Exact-arithmetic companion of the layout computation.  The source
performs its float arithmetic exactly as below except that int() truncates
the non-dominant scaled dimension and the centering offset is an integer
floor division by 2; the companion keeps those two values exact.  It is
used to state the claims that hold up to that rounding only. -/

/-- Scaled size and offsets with the two integer roundings kept exact. -/
structure ScaledGeometryR where
  scaled_w : ℚ
  scaled_h : ℚ
  x_offset : ℚ
  y_offset : ℚ
deriving DecidableEq, Repr

/-- Full placement geometry with exact scaled size and offsets. -/
structure GeometryR where
  rotate_image_90 : Bool
  scaled_w : ℚ
  scaled_h : ℚ
  x_offset : ℚ
  y_offset : ℚ
deriving DecidableEq, Repr

/-- The scale-computation block of calc_scaling with the int() truncation
and the floor division by 2 removed: scaled_w, scaled_h and the offsets
are the exact rational values the source rounds. -/
def calc_scaling_real (img_width img_height paper_w paper_h : ℚ) (mode : ScaleMode) :
    Except PyError ScaledGeometryR :=
  if img_height = 0 then .error .zeroDivisionError else
  if paper_h = 0 then .error .zeroDivisionError else
  let img_aspect : ℚ := img_width / img_height
  let paper_aspect : ℚ := paper_w / paper_h
  match mode with
  | .fill =>
      if img_aspect > paper_aspect then
        let scale : ℚ := paper_h / img_height
        let scaled_w : ℚ := img_width * scale
        .ok ⟨scaled_w, paper_h, (paper_w - scaled_w) / 2, 0⟩
      else
        if img_width = 0 then .error .zeroDivisionError else
        let scale : ℚ := paper_w / img_width
        let scaled_h : ℚ := img_height * scale
        .ok ⟨paper_w, scaled_h, 0, (paper_h - scaled_h) / 2⟩
  | .fit =>
      if img_aspect > paper_aspect then
        if img_width = 0 then .error .zeroDivisionError else
        let scale : ℚ := paper_w / img_width
        let scaled_h : ℚ := img_height * scale
        .ok ⟨paper_w, scaled_h, 0, (paper_h - scaled_h) / 2⟩
      else
        let scale : ℚ := paper_h / img_height
        let scaled_w : ℚ := img_width * scale
        .ok ⟨scaled_w, paper_h, (paper_w - scaled_w) / 2, 0⟩

/-- Exact companion of get_print_pixmap_geom: rotation decision and working
dimension swap as in the source, scale computation kept exact. -/
def get_print_pixmap_geom_real (img_width img_height paper_w paper_h : ℚ) (mode : ScaleMode) :
    Except PyError GeometryR :=
  Except.map
    (fun s => ⟨decide (img_width > img_height), s.scaled_w, s.scaled_h, s.x_offset, s.y_offset⟩)
    (calc_scaling_real img_width img_height
      (if img_width > img_height then paper_h else paper_w)
      (if img_width > img_height then paper_w else paper_h) mode)

lemma calc_real_fill_wide (iw ih pw ph : ℚ) (hih : ih ≠ 0) (hph : ph ≠ 0)
    (hb : iw / ih > pw / ph) :
    calc_scaling_real iw ih pw ph .fill =
      .ok ⟨iw * (ph / ih), ph, (pw - iw * (ph / ih)) / 2, 0⟩ := by
  simp only [calc_scaling_real, if_neg hih, if_neg hph, if_pos hb]

lemma calc_real_fill_tall (iw ih pw ph : ℚ) (hih : ih ≠ 0) (hph : ph ≠ 0) (hiw : iw ≠ 0)
    (hb : ¬ (iw / ih > pw / ph)) :
    calc_scaling_real iw ih pw ph .fill =
      .ok ⟨pw, ih * (pw / iw), 0, (ph - ih * (pw / iw)) / 2⟩ := by
  simp only [calc_scaling_real, if_neg hih, if_neg hph, if_neg hb, if_neg hiw]

lemma calc_real_fit_wide (iw ih pw ph : ℚ) (hih : ih ≠ 0) (hph : ph ≠ 0) (hiw : iw ≠ 0)
    (hb : iw / ih > pw / ph) :
    calc_scaling_real iw ih pw ph .fit =
      .ok ⟨pw, ih * (pw / iw), 0, (ph - ih * (pw / iw)) / 2⟩ := by
  simp only [calc_scaling_real, if_neg hih, if_neg hph, if_pos hb, if_neg hiw]

lemma calc_real_fit_tall (iw ih pw ph : ℚ) (hih : ih ≠ 0) (hph : ph ≠ 0)
    (hb : ¬ (iw / ih > pw / ph)) :
    calc_scaling_real iw ih pw ph .fit =
      .ok ⟨iw * (ph / ih), ph, (pw - iw * (ph / ih)) / 2, 0⟩ := by
  simp only [calc_scaling_real, if_neg hih, if_neg hph, if_neg hb]

/-! Compositor buffer model for the output pixmap dimensions.  A QPixmap
records its own width and height; painting through a QPainter never
changes them, while QPixmap.transformed replaces the pixmap by the
bounding box of the transformed one, ignoring translation components. -/

/-- Width and height a pixmap reports for itself. -/
structure Pixmap where
  width : ℤ
  height : ℤ
deriving DecidableEq, Repr

/-- Dimensions of QPixmap.transformed under an axis-aligned rotation by
the given number of quarter turns: an odd number of quarter turns swaps
width and height, an even number keeps them; translations are ignored. -/
def qpixmap_transformed_dims (p : Pixmap) (quarter_turns : ℤ) : Pixmap :=
  if quarter_turns % 2 = 0 then p else ⟨p.height, p.width⟩

/-- Dimensions of the pixmap update_preview hands to setPixmap: the buffer
is created at the unswapped preview paper size (line 267).  Painting ends
at line 329 before the transform is read at line 334, and the transform of
an inactive QPainter is the identity, zero quarter turns, regardless of
the rotation applied while drawing; so for a landscape image the finished
pixmap is transformed by that identity with a -90 degree turn appended
(lines 332-336), a net single quarter turn. -/
def update_preview_pixmap_dims (img_width img_height paper_w paper_h : ℤ)
    (mode : ScaleMode) : Pixmap :=
  let preview_pixmap : Pixmap := ⟨paper_w, paper_h⟩
  let inactive_painter_quarter_turns : ℤ := 0
  let _ := mode
  if img_width > img_height then
    qpixmap_transformed_dims preview_pixmap (inactive_painter_quarter_turns + (-1))
  else
    preview_pixmap

/-- Dimensions of the pixmap get_print_pixmap returns: the buffer is
created at the fixed portrait paper size 1200 x 1800 (lines 360-366) and
is never transformed; the painter rotation of lines 378-382 only affects
the drawing transform. -/
def get_print_pixmap_dims (img_width img_height : ℤ) (mode : ScaleMode) : Pixmap :=
  let paper_w : ℤ := 1200
  let paper_h : ℤ := 1800
  let _ := (img_width, img_height, mode)
  ⟨paper_w, paper_h⟩

/-! Rounding-distance helper lemmas. -/

lemma floor_close (x : ℚ) : |((⌊x⌋ : ℤ) : ℚ) - x| < 1 := by
  have h1 := Int.floor_le x
  have h2 := Int.sub_one_lt_floor x
  rw [abs_lt]
  constructor <;> linarith

lemma fdiv_two_bounds (d : ℤ) : 2 * Int.fdiv d 2 ≤ d ∧ d - 1 ≤ 2 * Int.fdiv d 2 := by
  rw [Int.fdiv_eq_ediv d (by norm_num)]
  omega

lemma fdiv_sub_floor_close (w : ℤ) (x : ℚ) :
    |((Int.fdiv (w - ⌊x⌋) 2 : ℤ) : ℚ) - (w - x) / 2| < 1 := by
  have h1 := Int.floor_le x
  have h2 := Int.sub_one_lt_floor x
  obtain ⟨h3a, h3b⟩ := fdiv_two_bounds (w - ⌊x⌋)
  have h3aq : (2 : ℚ) * ((Int.fdiv (w - ⌊x⌋) 2 : ℤ) : ℚ) ≤ ((w : ℚ) - (⌊x⌋ : ℚ)) := by
    exact_mod_cast h3a
  have h3bq : ((w : ℚ) - (⌊x⌋ : ℚ)) - 1 ≤ 2 * ((Int.fdiv (w - ⌊x⌋) 2 : ℤ) : ℚ) := by
    exact_mod_cast h3b
  rw [abs_lt]
  constructor <;> linarith

/-! Totality of the scale computation away from the zero divisors. -/

lemma calc_ok (iw ih pw ph : ℤ) (m : ScaleMode)
    (hiw : iw ≠ 0) (hih : ih ≠ 0) (hph : ph ≠ 0) :
    ∃ s : ScaledGeometry, calc_scaling iw ih pw ph m = .ok s := by
  by_cases hb : (iw : ℚ) / ih > (pw : ℚ) / ph <;> cases m
  · exact ⟨_, calc_fill_wide iw ih pw ph hih hph hb⟩
  · exact ⟨_, calc_fit_wide iw ih pw ph hih hph hiw hb⟩
  · exact ⟨_, calc_fill_tall iw ih pw ph hih hph hiw hb⟩
  · exact ⟨_, calc_fit_tall iw ih pw ph hih hph hb⟩

lemma working_w_pos (iw ih pw ph : ℤ) (hpw : 0 < pw) (hph : 0 < ph) :
    0 < working_w iw ih pw ph := by
  unfold working_w
  split_ifs <;> assumption

lemma working_h_pos (iw ih pw ph : ℤ) (hpw : 0 < pw) (hph : 0 < ph) :
    0 < working_h iw ih pw ph := by
  unfold working_h
  split_ifs <;> assumption

/-- C9: the geometry computation of the interactive preview and the one of
the print raster agree as functions: for every image size, canvas size and
mode, update_preview (lines 241-338) and get_print_pixmap (lines 345-422)
compute the same rotation decision, scale branch, scaled dimensions and
offsets when given the same canvas dimensions. -/
theorem c9_preview_print_same_geometry :
    ∀ (img_width img_height paper_w paper_h : ℤ) (mode : ScaleMode),
      update_preview_geom img_width img_height paper_w paper_h mode =
        get_print_pixmap_geom img_width img_height paper_w paper_h mode := by
  intro iw ih pw ph m
  rfl

/-- C8 counterexample: on a landscape 2000 x 1000 image with a 600 x 900
preview canvas, the transform read at line 334 comes from the inactive
painter ended at line 329 and is the identity, so the transformed() call
of lines 332-336 applies a net -90 degree quarter turn and the preview
buffer ends at the swapped 900 x 600, not at the original unswapped
canvas dimensions the claim asserts. -/
theorem c8_preview_buffer_swapped_landscape :
    update_preview_pixmap_dims 2000 1000 600 900 .fill = ⟨900, 600⟩ ∧
    ¬ (update_preview_pixmap_dims 2000 1000 600 900 .fill = ⟨600, 900⟩) := by
  constructor
  · decide
  · decide

/-- C8 amended: the print buffer is always the fixed 1200 x 1800 portrait
raster, unchanged by the drawing-transform rotation; the preview buffer
keeps the original unswapped canvas dimensions only for non-landscape
images, while for a landscape image the final transformed() call, built
on the identity transform of the already-ended painter, swaps the preview
buffer to the canvas dimensions exchanged. -/
theorem c8_print_buffer_fixed_preview_swapped
    (img_width img_height paper_w paper_h : ℤ) (mode : ScaleMode) :
    get_print_pixmap_dims img_width img_height mode = ⟨1200, 1800⟩ ∧
    update_preview_pixmap_dims img_width img_height paper_w paper_h mode =
      (if img_width > img_height then ⟨paper_h, paper_w⟩ else ⟨paper_w, paper_h⟩) := by
  constructor
  · rfl
  · by_cases h : img_width > img_height
    · rw [if_pos h]
      unfold update_preview_pixmap_dims qpixmap_transformed_dims
      rw [if_pos h]
      norm_num
    · rw [if_neg h]
      unfold update_preview_pixmap_dims
      rw [if_neg h]

/-- C1 counterexample: a negative image width reaches the geometry
computation unchallenged and produces placement geometry, so zero or
negative dimension inputs do not raise any failure of the engine in
general, contradicting the claim that they always do. -/
theorem c1_negative_dims_produce_geometry :
    get_print_pixmap_geom (-5) 3 10 10 .fill =
      .ok ⟨false, 10, -6, 0, 8⟩ := by
  simp only [get_print_pixmap_geom]
  norm_num
  have h : py_int ((-6 : ℚ)) = -6 :=
    py_int_neg_eq (-6 : ℚ) (-6) (by norm_num) (by norm_num) (by norm_num)
  rw [h]
  decide

/-- C1 amended: the engine validates nothing.  The only failure it can
raise is the ZeroDivisionError of a division whose divisor is zero; any
call avoiding those divisors, zero or negative dimensions included,
produces placement geometry. -/
theorem c1_no_dimension_validation
    (img_width img_height paper_w paper_h : ℤ) (mode : ScaleMode)
    (hiw : img_width ≠ 0) (hih : img_height ≠ 0)
    (hwh : working_h img_width img_height paper_w paper_h ≠ 0) :
    ∃ g : Geometry,
      get_print_pixmap_geom img_width img_height paper_w paper_h mode = .ok g := by
  obtain ⟨s, hs⟩ :=
    calc_ok img_width img_height
      (working_w img_width img_height paper_w paper_h)
      (working_h img_width img_height paper_w paper_h) mode hiw hih hwh
  refine ⟨⟨decide (img_width > img_height), s.scaled_w, s.scaled_h, s.x_offset, s.y_offset⟩, ?_⟩
  rw [get_print_eq_calc, hs]
  rfl

/-- C1 witness: concrete negative-width call on which the amended claim
produces geometry. -/
theorem c1_no_dimension_validation_witness :
    ∃ g : Geometry, get_print_pixmap_geom (-5) 3 10 10 .fill = .ok g :=
  c1_no_dimension_validation (-5) 3 10 10 .fill (by norm_num) (by norm_num)
    (by norm_num [working_h])

/-- C2: for positive inputs and either mode the geometry has
rotate_image_90 true exactly when the image is wider than tall, and the
whole computation factors through the scale computation at the working
canvas dimensions, which are the canvas dimensions swapped when rotating
and unchanged otherwise. -/
theorem c2_rotation_policy_and_working_swap
    (img_width img_height paper_w paper_h : ℤ) (mode : ScaleMode)
    (hiw : 0 < img_width) (hih : 0 < img_height)
    (hpw : 0 < paper_w) (hph : 0 < paper_h) :
    ∃ g : Geometry,
      get_print_pixmap_geom img_width img_height paper_w paper_h mode = .ok g ∧
      (g.rotate_image_90 = true ↔ img_width > img_height) ∧
      get_print_pixmap_geom img_width img_height paper_w paper_h mode =
        Except.map
          (fun s => ⟨g.rotate_image_90, s.scaled_w, s.scaled_h, s.x_offset, s.y_offset⟩)
          (calc_scaling img_width img_height
            (working_w img_width img_height paper_w paper_h)
            (working_h img_width img_height paper_w paper_h) mode) ∧
      (img_width > img_height →
        working_w img_width img_height paper_w paper_h = paper_h ∧
        working_h img_width img_height paper_w paper_h = paper_w) ∧
      (¬ img_width > img_height →
        working_w img_width img_height paper_w paper_h = paper_w ∧
        working_h img_width img_height paper_w paper_h = paper_h) := by
  obtain ⟨s, hs⟩ :=
    calc_ok img_width img_height
      (working_w img_width img_height paper_w paper_h)
      (working_h img_width img_height paper_w paper_h) mode
      (ne_of_gt hiw) (ne_of_gt hih)
      (ne_of_gt (working_h_pos img_width img_height paper_w paper_h hpw hph))
  refine ⟨⟨decide (img_width > img_height), s.scaled_w, s.scaled_h, s.x_offset, s.y_offset⟩,
    ?_, ?_, ?_, ?_, ?_⟩
  · rw [get_print_eq_calc, hs]
    rfl
  · simp
  · rw [get_print_eq_calc, hs]
  · intro h
    unfold working_w working_h
    rw [if_pos h, if_pos h]
    exact ⟨rfl, rfl⟩
  · intro h
    unfold working_w working_h
    rw [if_neg h, if_neg h]
    exact ⟨rfl, rfl⟩

/-- C2 witness: the landscape 2000 x 1000 image on the 1200 x 1800 print
canvas in fill mode. -/
theorem c2_rotation_policy_and_working_swap_witness :
    ∃ g : Geometry,
      get_print_pixmap_geom 2000 1000 1200 1800 .fill = .ok g ∧
      (g.rotate_image_90 = true ↔ (2000 : ℤ) > 1000) ∧
      get_print_pixmap_geom 2000 1000 1200 1800 .fill =
        Except.map
          (fun s => ⟨g.rotate_image_90, s.scaled_w, s.scaled_h, s.x_offset, s.y_offset⟩)
          (calc_scaling 2000 1000 (working_w 2000 1000 1200 1800)
            (working_h 2000 1000 1200 1800) .fill) ∧
      ((2000 : ℤ) > 1000 →
        working_w 2000 1000 1200 1800 = 1800 ∧
        working_h 2000 1000 1200 1800 = 1200) ∧
      (¬ (2000 : ℤ) > 1000 →
        working_w 2000 1000 1200 1800 = 1200 ∧
        working_h 2000 1000 1200 1800 = 1800) :=
  c2_rotation_policy_and_working_swap 2000 1000 1200 1800 .fill
    (by norm_num) (by norm_num) (by norm_num) (by norm_num)

/-- C3 counterexample: on the 3 x 2 image with the 4 x 5 working canvas
in fill mode the wide branch applies, yet the code truncates
imageW * scale = 7.5 to scaled_w = 7 and floor-divides the offset to -2,
while the claimed exact formulas give 7.5 and (4 - 7) / 2 = -1.5. -/
theorem c3_exact_formulas_fail :
    calc_scaling 3 2 4 5 .fill = .ok ⟨7, 5, -2, 0⟩ ∧
    ((3 : ℚ) / 2 > (4 : ℚ) / 5) ∧
    ¬ ((7 : ℚ) = 3 * ((5 : ℚ) / 2)) ∧
    ¬ ((-2 : ℚ) = ((4 : ℚ) - 7) / 2) := by
  refine ⟨?_, by norm_num, by norm_num, by norm_num⟩
  simp only [calc_scaling]
  norm_num
  have h : py_int ((15 : ℚ) / 2) = 7 :=
    py_int_eq ((15 : ℚ) / 2) 7 (by norm_num) (by norm_num) (by norm_num)
  rw [h]
  decide

/-- C3 amended: in fill mode the wide branch yields
scaled_w = int(imageW * scale) truncated toward zero with
scale = workingH / imageH, scaled_h = workingH,
x_offset = (workingW - scaled_w) // 2 with floor division and y_offset = 0;
the other branch symmetrically, the exact formulas of the claim holding
only before the int() truncation and the floor division. -/
theorem c3_fill_formulas_truncated
    (img_width img_height paper_w paper_h : ℤ)
    (hiw : 0 < img_width) (hih : 0 < img_height)
    (hpw : 0 < paper_w) (hph : 0 < paper_h) :
    (((img_width : ℚ) / img_height > (paper_w : ℚ) / paper_h) →
      calc_scaling img_width img_height paper_w paper_h .fill =
        .ok ⟨py_int ((img_width : ℚ) * ((paper_h : ℚ) / (img_height : ℚ))), paper_h,
             Int.fdiv
               (paper_w - py_int ((img_width : ℚ) * ((paper_h : ℚ) / (img_height : ℚ)))) 2,
             0⟩) ∧
    (¬ ((img_width : ℚ) / img_height > (paper_w : ℚ) / paper_h) →
      calc_scaling img_width img_height paper_w paper_h .fill =
        .ok ⟨paper_w, py_int ((img_height : ℚ) * ((paper_w : ℚ) / (img_width : ℚ))), 0,
             Int.fdiv
               (paper_h - py_int ((img_height : ℚ) * ((paper_w : ℚ) / (img_width : ℚ)))) 2⟩) :=
  ⟨fun hb => calc_fill_wide _ _ _ _ (ne_of_gt hih) (ne_of_gt hph) hb,
   fun hb => calc_fill_tall _ _ _ _ (ne_of_gt hih) (ne_of_gt hph) (ne_of_gt hiw) hb⟩

/-- C3 witness: the amended wide-branch formula evaluated on the 3 x 2
image with the 4 x 5 working canvas. -/
theorem c3_fill_formulas_truncated_witness :
    calc_scaling 3 2 4 5 .fill =
      .ok ⟨py_int (((3 : ℤ) : ℚ) * (((5 : ℤ) : ℚ) / ((2 : ℤ) : ℚ))), 5,
           Int.fdiv (4 - py_int (((3 : ℤ) : ℚ) * (((5 : ℤ) : ℚ) / ((2 : ℤ) : ℚ)))) 2, 0⟩ :=
  (c3_fill_formulas_truncated 3 2 4 5 (by norm_num) (by norm_num) (by norm_num)
      (by norm_num)).1 (by norm_num)

/-- C4: in fit mode, for positive inputs, the scaled image lies entirely
inside the working canvas: nonnegative offsets and no overflow past either
working dimension. -/
theorem c4_fit_never_overflows
    (img_width img_height paper_w paper_h : ℤ)
    (hiw : 0 < img_width) (hih : 0 < img_height)
    (hpw : 0 < paper_w) (hph : 0 < paper_h) :
    ∃ g : Geometry,
      get_print_pixmap_geom img_width img_height paper_w paper_h .fit = .ok g ∧
      g.scaled_w ≤ working_w img_width img_height paper_w paper_h ∧
      g.scaled_h ≤ working_h img_width img_height paper_w paper_h ∧
      0 ≤ g.x_offset ∧ 0 ≤ g.y_offset ∧
      g.x_offset + g.scaled_w ≤ working_w img_width img_height paper_w paper_h ∧
      g.y_offset + g.scaled_h ≤ working_h img_width img_height paper_w paper_h := by
  set ww := working_w img_width img_height paper_w paper_h with hww_def
  set wh := working_h img_width img_height paper_w paper_h with hwh_def
  have hww : 0 < ww := working_w_pos img_width img_height paper_w paper_h hpw hph
  have hwh : 0 < wh := working_h_pos img_width img_height paper_w paper_h hpw hph
  have hiwq : (0 : ℚ) < (img_width : ℚ) := by exact_mod_cast hiw
  have hihq : (0 : ℚ) < (img_height : ℚ) := by exact_mod_cast hih
  have hwwq : (0 : ℚ) < (ww : ℚ) := by exact_mod_cast hww
  have hwhq : (0 : ℚ) < (wh : ℚ) := by exact_mod_cast hwh
  by_cases hb : (img_width : ℚ) / img_height > (ww : ℚ) / wh
  · set x : ℚ := (img_height : ℚ) * ((ww : ℚ) / (img_width : ℚ)) with hx_def
    have hx0 : 0 ≤ x := by positivity
    have hcross : (ww : ℚ) * img_height < (img_width : ℚ) * wh :=
      (div_lt_div_iff₀ hwhq hihq).mp hb
    have hxlt : x < (wh : ℚ) := by
      rw [hx_def, mul_div_assoc']
      rw [div_lt_iff₀ hiwq]
      nlinarith
    have hfl : py_int x = ⌊x⌋ := py_int_of_nonneg x hx0
    have hfle : (⌊x⌋ : ℚ) ≤ x := Int.floor_le x
    have hsh_le : ⌊x⌋ ≤ wh := le_of_lt (Int.floor_lt.mpr hxlt)
    have hsh_0 : 0 ≤ ⌊x⌋ := Int.le_floor.mpr (by exact_mod_cast hx0)
    obtain ⟨hf1, hf2⟩ := fdiv_two_bounds (wh - ⌊x⌋)
    have hy0 : 0 ≤ Int.fdiv (wh - ⌊x⌋) 2 :=
      Int.fdiv_nonneg (by omega) (by norm_num)
    refine ⟨⟨decide (img_width > img_height), ww, py_int x, 0, Int.fdiv (wh - py_int x) 2⟩,
      ?_, ?_, ?_, ?_, ?_, ?_, ?_⟩
    · rw [get_print_eq_calc,
        calc_fit_wide img_width img_height ww wh (ne_of_gt hih) (ne_of_gt hwh)
          (ne_of_gt hiw) hb]
      rfl
    · exact le_refl ww
    · dsimp only; rw [hfl]; exact hsh_le
    · exact le_refl 0
    · dsimp only; rw [hfl]; exact hy0
    · dsimp only; omega
    · dsimp only; rw [hfl]; omega
  · set x : ℚ := (img_width : ℚ) * ((wh : ℚ) / (img_height : ℚ)) with hx_def
    have hx0 : 0 ≤ x := by positivity
    have hcross : (img_width : ℚ) * wh ≤ (ww : ℚ) * img_height := by
      have := (div_le_div_iff₀ hihq hwhq).mp (not_lt.mp hb)
      linarith
    have hxle : x ≤ (ww : ℚ) := by
      rw [hx_def, mul_div_assoc']
      rw [div_le_iff₀ hihq]
      nlinarith
    have hfl : py_int x = ⌊x⌋ := py_int_of_nonneg x hx0
    have hfle : (⌊x⌋ : ℚ) ≤ x := Int.floor_le x
    have hsw_le : ⌊x⌋ ≤ ww := by
      have : (⌊x⌋ : ℚ) ≤ (ww : ℚ) := le_trans hfle hxle
      exact_mod_cast this
    have hsw_0 : 0 ≤ ⌊x⌋ := Int.le_floor.mpr (by exact_mod_cast hx0)
    obtain ⟨hf1, hf2⟩ := fdiv_two_bounds (ww - ⌊x⌋)
    have hx0i : 0 ≤ Int.fdiv (ww - ⌊x⌋) 2 :=
      Int.fdiv_nonneg (by omega) (by norm_num)
    refine ⟨⟨decide (img_width > img_height), py_int x, wh, Int.fdiv (ww - py_int x) 2, 0⟩,
      ?_, ?_, ?_, ?_, ?_, ?_, ?_⟩
    · rw [get_print_eq_calc,
        calc_fit_tall img_width img_height ww wh (ne_of_gt hih) (ne_of_gt hwh) hb]
      rfl
    · dsimp only; rw [hfl]; exact hsw_le
    · exact le_refl wh
    · dsimp only; rw [hfl]; exact hx0i
    · exact le_refl 0
    · dsimp only; rw [hfl]; omega
    · dsimp only; omega

/-- C4 witness: the square 1000 x 1000 image on the 1200 x 1800 print
canvas in fit mode stays inside the working canvas. -/
theorem c4_fit_never_overflows_witness :
    ∃ g : Geometry,
      get_print_pixmap_geom 1000 1000 1200 1800 .fit = .ok g ∧
      g.scaled_w ≤ working_w 1000 1000 1200 1800 ∧
      g.scaled_h ≤ working_h 1000 1000 1200 1800 ∧
      0 ≤ g.x_offset ∧ 0 ≤ g.y_offset ∧
      g.x_offset + g.scaled_w ≤ working_w 1000 1000 1200 1800 ∧
      g.y_offset + g.scaled_h ≤ working_h 1000 1000 1200 1800 :=
  c4_fit_never_overflows 1000 1000 1200 1800 (by norm_num) (by norm_num) (by norm_num)
    (by norm_num)

/-- C6: when the image aspect ratio equals the working canvas aspect ratio
exactly, fill and fit produce the same geometry, filling the working
canvas with no crop and no border; in particular the 800 x 1200 image on
the 1200 x 1800 print canvas gives 1200 x 1800 at offset (0, 0) in both
modes. -/
theorem c6_exact_aspect_tie
    (img_width img_height paper_w paper_h : ℤ)
    (hiw : 0 < img_width) (hih : 0 < img_height)
    (hpw : 0 < paper_w) (hph : 0 < paper_h)
    (hasp : img_width * working_h img_width img_height paper_w paper_h =
            img_height * working_w img_width img_height paper_w paper_h) :
    ∃ g : Geometry,
      get_print_pixmap_geom img_width img_height paper_w paper_h .fill = .ok g ∧
      get_print_pixmap_geom img_width img_height paper_w paper_h .fit = .ok g ∧
      g.scaled_w = working_w img_width img_height paper_w paper_h ∧
      g.scaled_h = working_h img_width img_height paper_w paper_h ∧
      g.x_offset = 0 ∧ g.y_offset = 0 ∧
      get_print_pixmap_geom 800 1200 1200 1800 .fill = .ok ⟨false, 1200, 1800, 0, 0⟩ ∧
      get_print_pixmap_geom 800 1200 1200 1800 .fit = .ok ⟨false, 1200, 1800, 0, 0⟩ := by
  set ww := working_w img_width img_height paper_w paper_h with hww_def
  set wh := working_h img_width img_height paper_w paper_h with hwh_def
  have hww : 0 < ww := working_w_pos img_width img_height paper_w paper_h hpw hph
  have hwh : 0 < wh := working_h_pos img_width img_height paper_w paper_h hpw hph
  have hiwq : (0 : ℚ) < (img_width : ℚ) := by exact_mod_cast hiw
  have hihq : (0 : ℚ) < (img_height : ℚ) := by exact_mod_cast hih
  have hwwq : (0 : ℚ) < (ww : ℚ) := by exact_mod_cast hww
  have hwhq : (0 : ℚ) < (wh : ℚ) := by exact_mod_cast hwh
  have haspq : (img_width : ℚ) * wh = (img_height : ℚ) * ww := by exact_mod_cast hasp
  have heq : (img_width : ℚ) / img_height = (ww : ℚ) / wh := by
    rw [div_eq_div_iff hihq.ne' hwhq.ne']
    linear_combination haspq
  have hb : ¬ ((img_width : ℚ) / img_height > (ww : ℚ) / wh) := by
    rw [heq]
    exact lt_irrefl _
  have hx1 : (img_height : ℚ) * ((ww : ℚ) / (img_width : ℚ)) = ((wh : ℤ) : ℚ) := by
    field_simp
    linear_combination -haspq
  have hx2 : (img_width : ℚ) * ((wh : ℚ) / (img_height : ℚ)) = ((ww : ℤ) : ℚ) := by
    field_simp
    linear_combination haspq
  have hconc1 : get_print_pixmap_geom 800 1200 1200 1800 .fill =
      .ok ⟨false, 1200, 1800, 0, 0⟩ := by
    simp only [get_print_pixmap_geom]
    norm_num
    have h : py_int ((1800 : ℚ)) = 1800 := by
      rw [show ((1800 : ℚ)) = ((1800 : ℤ) : ℚ) by norm_num, py_int_intCast]
    rw [h]
    decide
  have hconc2 : get_print_pixmap_geom 800 1200 1200 1800 .fit =
      .ok ⟨false, 1200, 1800, 0, 0⟩ := by
    simp only [get_print_pixmap_geom]
    norm_num
    have h : py_int ((1200 : ℚ)) = 1200 := by
      rw [show ((1200 : ℚ)) = ((1200 : ℤ) : ℚ) by norm_num, py_int_intCast]
    rw [h]
    decide
  refine ⟨⟨decide (img_width > img_height), ww, wh, 0, 0⟩, ?_, ?_, rfl, rfl, rfl, rfl,
    hconc1, hconc2⟩
  · rw [get_print_eq_calc,
      calc_fill_tall img_width img_height ww wh (ne_of_gt hih) (ne_of_gt hwh)
        (ne_of_gt hiw) hb]
    rw [hx1, py_int_intCast, sub_self]
    rfl
  · rw [get_print_eq_calc,
      calc_fit_tall img_width img_height ww wh (ne_of_gt hih) (ne_of_gt hwh) hb]
    rw [hx2, py_int_intCast, sub_self]
    rfl

/-- C6 witness: the exact-aspect instance 800 x 1200 on 1200 x 1800. -/
theorem c6_exact_aspect_tie_witness :
    ∃ g : Geometry,
      get_print_pixmap_geom 800 1200 1200 1800 .fill = .ok g ∧
      get_print_pixmap_geom 800 1200 1200 1800 .fit = .ok g ∧
      g.scaled_w = working_w 800 1200 1200 1800 ∧
      g.scaled_h = working_h 800 1200 1200 1800 ∧
      g.x_offset = 0 ∧ g.y_offset = 0 ∧
      get_print_pixmap_geom 800 1200 1200 1800 .fill = .ok ⟨false, 1200, 1800, 0, 0⟩ ∧
      get_print_pixmap_geom 800 1200 1200 1800 .fit = .ok ⟨false, 1200, 1800, 0, 0⟩ :=
  c6_exact_aspect_tie 800 1200 1200 1800 (by norm_num) (by norm_num) (by norm_num)
    (by norm_num) (by norm_num [working_w, working_h])

/-- Centering bookkeeping of an offset computed by integer floor division:
the off-axis difference d = total - size satisfies d - 2 * off = d mod 2,
so for odd d the placement is off center by one pixel, the bigger border
lying on the far side and the bigger crop on the near side. -/
def centered (total size off : ℤ) : Prop :=
  off = Int.fdiv (total - size) 2 ∧
  total - size - 2 * off = (total - size) % 2 ∧
  ((total - size) % 2 = 1 →
    (0 < total - size → total - (off + size) = off + 1) ∧
    (total - size < 0 → -off = (off + size - total) + 1))

lemma centered_fdiv (total size : ℤ) : centered total size (Int.fdiv (total - size) 2) := by
  unfold centered
  rw [Int.fdiv_eq_ediv _ (by norm_num)]
  omega

/-- C10 counterexample: the landscape 2001 x 1000 image on the print
canvas in fill mode crops 601 pixels split as 301 left and 300 right of
the working frame, so the larger share of the crop is on the near (left)
side, not the right side the claim asserts. -/
theorem c10_crop_larger_share_left :
    get_print_pixmap_geom 2001 1000 1200 1800 .fill = .ok ⟨true, 2401, 1200, -301, 0⟩ ∧
    ((-301 : ℤ) + 2401 - 1800 < -(-301 : ℤ)) := by
  refine ⟨?_, by norm_num⟩
  simp only [get_print_pixmap_geom]
  norm_num
  have h : py_int ((12006 : ℚ) / 5) = 2401 :=
    py_int_eq ((12006 : ℚ) / 5) 2401 (by norm_num) (by norm_num) (by norm_num)
  rw [h]
  decide

/-- C10 amended: all geometry components are integers, the non-dominant
scaled dimension being int(imageDim * scale) truncated toward zero and the
centering offset (workingDim - scaledDim) // 2 with floor division; when
the difference is odd the placement is off center by exactly one pixel,
with the larger share of a border on the right or bottom but the larger
share of a crop on the left or top. -/
theorem c10_integer_rounding_off_center
    (img_width img_height paper_w paper_h : ℤ) (mode : ScaleMode)
    (hiw : 0 < img_width) (hih : 0 < img_height)
    (hpw : 0 < paper_w) (hph : 0 < paper_h) :
    ∃ g : Geometry,
      get_print_pixmap_geom img_width img_height paper_w paper_h mode = .ok g ∧
      ((g.scaled_h = working_h img_width img_height paper_w paper_h ∧
        g.scaled_w = py_int ((img_width : ℚ) *
          ((working_h img_width img_height paper_w paper_h : ℚ) / (img_height : ℚ))) ∧
        g.y_offset = 0 ∧
        centered (working_w img_width img_height paper_w paper_h) g.scaled_w g.x_offset) ∨
       (g.scaled_w = working_w img_width img_height paper_w paper_h ∧
        g.scaled_h = py_int ((img_height : ℚ) *
          ((working_w img_width img_height paper_w paper_h : ℚ) / (img_width : ℚ))) ∧
        g.x_offset = 0 ∧
        centered (working_h img_width img_height paper_w paper_h) g.scaled_h g.y_offset)) := by
  set ww := working_w img_width img_height paper_w paper_h with hww_def
  set wh := working_h img_width img_height paper_w paper_h with hwh_def
  have hww : 0 < ww := working_w_pos img_width img_height paper_w paper_h hpw hph
  have hwh : 0 < wh := working_h_pos img_width img_height paper_w paper_h hpw hph
  by_cases hb : (img_width : ℚ) / img_height > (ww : ℚ) / wh <;> cases mode
  · refine ⟨⟨decide (img_width > img_height),
      py_int ((img_width : ℚ) * ((wh : ℚ) / (img_height : ℚ))), wh,
      Int.fdiv (ww - py_int ((img_width : ℚ) * ((wh : ℚ) / (img_height : ℚ)))) 2, 0⟩,
      ?_, Or.inl ⟨rfl, rfl, rfl, ?_⟩⟩
    · rw [get_print_eq_calc,
        calc_fill_wide img_width img_height ww wh (ne_of_gt hih) (ne_of_gt hwh) hb]
      rfl
    · exact centered_fdiv ww _
  · refine ⟨⟨decide (img_width > img_height), ww,
      py_int ((img_height : ℚ) * ((ww : ℚ) / (img_width : ℚ))), 0,
      Int.fdiv (wh - py_int ((img_height : ℚ) * ((ww : ℚ) / (img_width : ℚ)))) 2⟩,
      ?_, Or.inr ⟨rfl, rfl, rfl, ?_⟩⟩
    · rw [get_print_eq_calc,
        calc_fit_wide img_width img_height ww wh (ne_of_gt hih) (ne_of_gt hwh)
          (ne_of_gt hiw) hb]
      rfl
    · exact centered_fdiv wh _
  · refine ⟨⟨decide (img_width > img_height), ww,
      py_int ((img_height : ℚ) * ((ww : ℚ) / (img_width : ℚ))), 0,
      Int.fdiv (wh - py_int ((img_height : ℚ) * ((ww : ℚ) / (img_width : ℚ)))) 2⟩,
      ?_, Or.inr ⟨rfl, rfl, rfl, ?_⟩⟩
    · rw [get_print_eq_calc,
        calc_fill_tall img_width img_height ww wh (ne_of_gt hih) (ne_of_gt hwh)
          (ne_of_gt hiw) hb]
      rfl
    · exact centered_fdiv wh _
  · refine ⟨⟨decide (img_width > img_height),
      py_int ((img_width : ℚ) * ((wh : ℚ) / (img_height : ℚ))), wh,
      Int.fdiv (ww - py_int ((img_width : ℚ) * ((wh : ℚ) / (img_height : ℚ)))) 2, 0⟩,
      ?_, Or.inl ⟨rfl, rfl, rfl, ?_⟩⟩
    · rw [get_print_eq_calc,
        calc_fit_tall img_width img_height ww wh (ne_of_gt hih) (ne_of_gt hwh) hb]
      rfl
    · exact centered_fdiv ww _

/-- C10 witness: the landscape 2001 x 1000 image on the print canvas in
fill mode, producing an odd crop difference. -/
theorem c10_integer_rounding_off_center_witness :
    ∃ g : Geometry,
      get_print_pixmap_geom 2001 1000 1200 1800 .fill = .ok g ∧
      ((g.scaled_h = working_h 2001 1000 1200 1800 ∧
        g.scaled_w = py_int (((2001 : ℤ) : ℚ) *
          ((working_h 2001 1000 1200 1800 : ℚ) / ((1000 : ℤ) : ℚ))) ∧
        g.y_offset = 0 ∧
        centered (working_w 2001 1000 1200 1800) g.scaled_w g.x_offset) ∨
       (g.scaled_w = working_w 2001 1000 1200 1800 ∧
        g.scaled_h = py_int (((1000 : ℤ) : ℚ) *
          ((working_w 2001 1000 1200 1800 : ℚ) / ((2001 : ℤ) : ℚ))) ∧
        g.x_offset = 0 ∧
        centered (working_h 2001 1000 1200 1800) g.scaled_h g.y_offset)) :=
  c10_integer_rounding_off_center 2001 1000 1200 1800 .fill (by norm_num) (by norm_num)
    (by norm_num) (by norm_num)

/-- The exact companion at integer inputs factors through the scale
computation at the cast working dimensions. -/
lemma get_real_eq_calc_real_int (iw ih pw ph : ℤ) (m : ScaleMode) :
    get_print_pixmap_geom_real (iw : ℚ) (ih : ℚ) (pw : ℚ) (ph : ℚ) m =
      Except.map
        (fun s => ⟨decide (iw > ih), s.scaled_w, s.scaled_h, s.x_offset, s.y_offset⟩)
        (calc_scaling_real (iw : ℚ) (ih : ℚ)
          ((working_w iw ih pw ph : ℤ) : ℚ) ((working_h iw ih pw ph : ℤ) : ℚ) m) := by
  have hq : ((iw : ℚ) > (ih : ℚ)) ↔ (iw > ih) := by exact_mod_cast Iff.rfl
  have hd : decide ((iw : ℚ) > (ih : ℚ)) = decide (iw > ih) := decide_eq_decide.mpr hq
  unfold get_print_pixmap_geom_real working_w working_h
  by_cases h : iw > ih
  · rw [if_pos (hq.mpr h), if_pos (hq.mpr h), if_pos h, if_pos h, hd]
  · rw [if_neg (fun hc => h (hq.mp hc)), if_neg (fun hc => h (hq.mp hc)),
      if_neg h, if_neg h, hd]

/-- C7: for positive inputs and both modes, the exact companion preserves
the image aspect ratio identically and the integer geometry preserves it
within one truncation step: the cross product error is below the larger
image dimension.  The geometry is expressed in working-canvas coordinates,
where the ratio is imageW / imageH; in buffer coordinates a rotated image
occupies the reciprocal ratio. -/
theorem c7_aspect_ratio_preserved
    (img_width img_height paper_w paper_h : ℤ) (mode : ScaleMode)
    (hiw : 0 < img_width) (hih : 0 < img_height)
    (hpw : 0 < paper_w) (hph : 0 < paper_h) :
    ∃ (g : Geometry) (r : GeometryR),
      get_print_pixmap_geom img_width img_height paper_w paper_h mode = .ok g ∧
      get_print_pixmap_geom_real (img_width : ℚ) (img_height : ℚ)
        (paper_w : ℚ) (paper_h : ℚ) mode = .ok r ∧
      g.rotate_image_90 = r.rotate_image_90 ∧
      r.scaled_w * (img_height : ℚ) = r.scaled_h * (img_width : ℚ) ∧
      |img_width * g.scaled_h - img_height * g.scaled_w| < max img_width img_height := by
  set ww := working_w img_width img_height paper_w paper_h with hww_def
  set wh := working_h img_width img_height paper_w paper_h with hwh_def
  have hww : 0 < ww := working_w_pos img_width img_height paper_w paper_h hpw hph
  have hwh : 0 < wh := working_h_pos img_width img_height paper_w paper_h hpw hph
  have hiwq : (0 : ℚ) < (img_width : ℚ) := by exact_mod_cast hiw
  have hihq : (0 : ℚ) < (img_height : ℚ) := by exact_mod_cast hih
  have hwwq : (0 : ℚ) < (ww : ℚ) := by exact_mod_cast hww
  have hwhq : (0 : ℚ) < (wh : ℚ) := by exact_mod_cast hwh
  have hmaxw : img_width ≤ max img_width img_height := le_max_left _ _
  have hmaxh : img_height ≤ max img_width img_height := le_max_right _ _
  by_cases hb : (img_width : ℚ) / img_height > (ww : ℚ) / wh <;> cases mode
  case pos.fill =>
    set x : ℚ := (img_width : ℚ) * ((wh : ℚ) / (img_height : ℚ)) with hx_def
    have hx0 : 0 ≤ x := by positivity
    have hx_mul : (img_height : ℚ) * x = (img_width : ℚ) * wh := by
      rw [hx_def]
      field_simp
    have hA : (img_height : ℚ) * (⌊x⌋ : ℚ) ≤ (img_width : ℚ) * (wh : ℚ) := by
      have := mul_le_mul_of_nonneg_left (Int.floor_le x) hihq.le
      linarith
    have hB : (img_width : ℚ) * (wh : ℚ) - (img_height : ℚ) < (img_height : ℚ) * (⌊x⌋ : ℚ) := by
      have := mul_lt_mul_of_pos_left (Int.sub_one_lt_floor x) hihq
      nlinarith
    have hAi : img_height * ⌊x⌋ ≤ img_width * wh := by exact_mod_cast hA
    have hBi : img_width * wh - img_height < img_height * ⌊x⌋ := by exact_mod_cast hB
    refine ⟨⟨decide (img_width > img_height), py_int x, wh,
      Int.fdiv (ww - py_int x) 2, 0⟩,
      ⟨decide (img_width > img_height), x, (wh : ℚ), ((ww : ℚ) - x) / 2, 0⟩,
      ?_, ?_, rfl, ?_, ?_⟩
    · rw [get_print_eq_calc,
        calc_fill_wide img_width img_height ww wh (ne_of_gt hih) (ne_of_gt hwh) hb]
      rfl
    · rw [get_real_eq_calc_real_int,
        calc_real_fill_wide _ _ _ _ (ne_of_gt hihq) (ne_of_gt hwhq) hb]
      rfl
    · dsimp only
      rw [hx_def]
      field_simp
      ring
    · dsimp only
      rw [py_int_of_nonneg x hx0, abs_lt]
      omega
  case pos.fit =>
    set y : ℚ := (img_height : ℚ) * ((ww : ℚ) / (img_width : ℚ)) with hy_def
    have hy0 : 0 ≤ y := by positivity
    have hy_mul : (img_width : ℚ) * y = (img_height : ℚ) * ww := by
      rw [hy_def]
      field_simp
    have hA : (img_width : ℚ) * (⌊y⌋ : ℚ) ≤ (img_height : ℚ) * (ww : ℚ) := by
      have := mul_le_mul_of_nonneg_left (Int.floor_le y) hiwq.le
      linarith
    have hB : (img_height : ℚ) * (ww : ℚ) - (img_width : ℚ) < (img_width : ℚ) * (⌊y⌋ : ℚ) := by
      have := mul_lt_mul_of_pos_left (Int.sub_one_lt_floor y) hiwq
      nlinarith
    have hAi : img_width * ⌊y⌋ ≤ img_height * ww := by exact_mod_cast hA
    have hBi : img_height * ww - img_width < img_width * ⌊y⌋ := by exact_mod_cast hB
    refine ⟨⟨decide (img_width > img_height), ww, py_int y, 0,
      Int.fdiv (wh - py_int y) 2⟩,
      ⟨decide (img_width > img_height), (ww : ℚ), y, 0, ((wh : ℚ) - y) / 2⟩,
      ?_, ?_, rfl, ?_, ?_⟩
    · rw [get_print_eq_calc,
        calc_fit_wide img_width img_height ww wh (ne_of_gt hih) (ne_of_gt hwh)
          (ne_of_gt hiw) hb]
      rfl
    · rw [get_real_eq_calc_real_int,
        calc_real_fit_wide _ _ _ _ (ne_of_gt hihq) (ne_of_gt hwhq) (ne_of_gt hiwq) hb]
      rfl
    · dsimp only
      rw [hy_def]
      field_simp
      ring
    · dsimp only
      rw [py_int_of_nonneg y hy0, abs_lt]
      omega
  case neg.fill =>
    set y : ℚ := (img_height : ℚ) * ((ww : ℚ) / (img_width : ℚ)) with hy_def
    have hy0 : 0 ≤ y := by positivity
    have hA : (img_width : ℚ) * (⌊y⌋ : ℚ) ≤ (img_height : ℚ) * (ww : ℚ) := by
      have h1 := mul_le_mul_of_nonneg_left (Int.floor_le y) hiwq.le
      have hy_mul : (img_width : ℚ) * y = (img_height : ℚ) * ww := by
        rw [hy_def]
        field_simp
      linarith
    have hB : (img_height : ℚ) * (ww : ℚ) - (img_width : ℚ) < (img_width : ℚ) * (⌊y⌋ : ℚ) := by
      have h1 := mul_lt_mul_of_pos_left (Int.sub_one_lt_floor y) hiwq
      have hy_mul : (img_width : ℚ) * y = (img_height : ℚ) * ww := by
        rw [hy_def]
        field_simp
      nlinarith
    have hAi : img_width * ⌊y⌋ ≤ img_height * ww := by exact_mod_cast hA
    have hBi : img_height * ww - img_width < img_width * ⌊y⌋ := by exact_mod_cast hB
    refine ⟨⟨decide (img_width > img_height), ww, py_int y, 0,
      Int.fdiv (wh - py_int y) 2⟩,
      ⟨decide (img_width > img_height), (ww : ℚ), y, 0, ((wh : ℚ) - y) / 2⟩,
      ?_, ?_, rfl, ?_, ?_⟩
    · rw [get_print_eq_calc,
        calc_fill_tall img_width img_height ww wh (ne_of_gt hih) (ne_of_gt hwh)
          (ne_of_gt hiw) hb]
      rfl
    · rw [get_real_eq_calc_real_int,
        calc_real_fill_tall _ _ _ _ (ne_of_gt hihq) (ne_of_gt hwhq) (ne_of_gt hiwq) hb]
      rfl
    · dsimp only
      rw [hy_def]
      field_simp
      ring
    · dsimp only
      rw [py_int_of_nonneg y hy0, abs_lt]
      omega
  case neg.fit =>
    set x : ℚ := (img_width : ℚ) * ((wh : ℚ) / (img_height : ℚ)) with hx_def
    have hx0 : 0 ≤ x := by positivity
    have hx_mul : (img_height : ℚ) * x = (img_width : ℚ) * wh := by
      rw [hx_def]
      field_simp
    have hA : (img_height : ℚ) * (⌊x⌋ : ℚ) ≤ (img_width : ℚ) * (wh : ℚ) := by
      have := mul_le_mul_of_nonneg_left (Int.floor_le x) hihq.le
      linarith
    have hB : (img_width : ℚ) * (wh : ℚ) - (img_height : ℚ) < (img_height : ℚ) * (⌊x⌋ : ℚ) := by
      have := mul_lt_mul_of_pos_left (Int.sub_one_lt_floor x) hihq
      nlinarith
    have hAi : img_height * ⌊x⌋ ≤ img_width * wh := by exact_mod_cast hA
    have hBi : img_width * wh - img_height < img_height * ⌊x⌋ := by exact_mod_cast hB
    refine ⟨⟨decide (img_width > img_height), py_int x, wh,
      Int.fdiv (ww - py_int x) 2, 0⟩,
      ⟨decide (img_width > img_height), x, (wh : ℚ), ((ww : ℚ) - x) / 2, 0⟩,
      ?_, ?_, rfl, ?_, ?_⟩
    · rw [get_print_eq_calc,
        calc_fit_tall img_width img_height ww wh (ne_of_gt hih) (ne_of_gt hwh) hb]
      rfl
    · rw [get_real_eq_calc_real_int,
        calc_real_fit_tall _ _ _ _ (ne_of_gt hihq) (ne_of_gt hwhq) hb]
      rfl
    · dsimp only
      rw [hx_def]
      field_simp
      ring
    · dsimp only
      rw [py_int_of_nonneg x hx0, abs_lt]
      omega

/-- C7 witness: the landscape 2000 x 1000 image on the print canvas in
fill mode. -/
theorem c7_aspect_ratio_preserved_witness :
    ∃ (g : Geometry) (r : GeometryR),
      get_print_pixmap_geom 2000 1000 1200 1800 .fill = .ok g ∧
      get_print_pixmap_geom_real ((2000 : ℤ) : ℚ) ((1000 : ℤ) : ℚ)
        ((1200 : ℤ) : ℚ) ((1800 : ℤ) : ℚ) .fill = .ok r ∧
      g.rotate_image_90 = r.rotate_image_90 ∧
      r.scaled_w * ((1000 : ℤ) : ℚ) = r.scaled_h * ((2000 : ℤ) : ℚ) ∧
      |2000 * g.scaled_h - 1000 * g.scaled_w| < max (2000 : ℤ) 1000 :=
  c7_aspect_ratio_preserved 2000 1000 1200 1800 .fill (by norm_num) (by norm_num)
    (by norm_num) (by norm_num)

/-- For positive inputs the integer scale computation tracks its exact
companion within one unit per component. -/
lemma calc_bridge (iw ih pw ph : ℤ) (m : ScaleMode)
    (hiw : 0 < iw) (hih : 0 < ih) (hpw : 0 < pw) (hph : 0 < ph) :
    ∃ (s : ScaledGeometry) (r : ScaledGeometryR),
      calc_scaling iw ih pw ph m = .ok s ∧
      calc_scaling_real (iw : ℚ) (ih : ℚ) (pw : ℚ) (ph : ℚ) m = .ok r ∧
      |(s.scaled_w : ℚ) - r.scaled_w| < 1 ∧ |(s.scaled_h : ℚ) - r.scaled_h| < 1 ∧
      |(s.x_offset : ℚ) - r.x_offset| < 1 ∧ |(s.y_offset : ℚ) - r.y_offset| < 1 := by
  have hiwq : (0 : ℚ) < (iw : ℚ) := by exact_mod_cast hiw
  have hihq : (0 : ℚ) < (ih : ℚ) := by exact_mod_cast hih
  have hpwq : (0 : ℚ) < (pw : ℚ) := by exact_mod_cast hpw
  have hphq : (0 : ℚ) < (ph : ℚ) := by exact_mod_cast hph
  by_cases hb : (iw : ℚ) / ih > (pw : ℚ) / ph <;> cases m
  case pos.fill =>
    set x : ℚ := (iw : ℚ) * ((ph : ℚ) / (ih : ℚ)) with hx_def
    have hx0 : 0 ≤ x := by positivity
    refine ⟨_, _, calc_fill_wide iw ih pw ph (ne_of_gt hih) (ne_of_gt hph) hb,
      calc_real_fill_wide _ _ _ _ (ne_of_gt hihq) (ne_of_gt hphq) hb, ?_, ?_, ?_, ?_⟩
    · dsimp only
      rw [py_int_of_nonneg x hx0]
      exact floor_close x
    · dsimp only
      rw [sub_self, abs_zero]
      norm_num
    · dsimp only
      rw [py_int_of_nonneg x hx0]
      exact fdiv_sub_floor_close pw x
    · dsimp only
      norm_num
  case pos.fit =>
    set y : ℚ := (ih : ℚ) * ((pw : ℚ) / (iw : ℚ)) with hy_def
    have hy0 : 0 ≤ y := by positivity
    refine ⟨_, _, calc_fit_wide iw ih pw ph (ne_of_gt hih) (ne_of_gt hph) (ne_of_gt hiw) hb,
      calc_real_fit_wide _ _ _ _ (ne_of_gt hihq) (ne_of_gt hphq) (ne_of_gt hiwq) hb,
      ?_, ?_, ?_, ?_⟩
    · dsimp only
      rw [sub_self, abs_zero]
      norm_num
    · dsimp only
      rw [py_int_of_nonneg y hy0]
      exact floor_close y
    · dsimp only
      norm_num
    · dsimp only
      rw [py_int_of_nonneg y hy0]
      exact fdiv_sub_floor_close ph y
  case neg.fill =>
    set y : ℚ := (ih : ℚ) * ((pw : ℚ) / (iw : ℚ)) with hy_def
    have hy0 : 0 ≤ y := by positivity
    refine ⟨_, _, calc_fill_tall iw ih pw ph (ne_of_gt hih) (ne_of_gt hph) (ne_of_gt hiw) hb,
      calc_real_fill_tall _ _ _ _ (ne_of_gt hihq) (ne_of_gt hphq) (ne_of_gt hiwq) hb,
      ?_, ?_, ?_, ?_⟩
    · dsimp only
      rw [sub_self, abs_zero]
      norm_num
    · dsimp only
      rw [py_int_of_nonneg y hy0]
      exact floor_close y
    · dsimp only
      norm_num
    · dsimp only
      rw [py_int_of_nonneg y hy0]
      exact fdiv_sub_floor_close ph y
  case neg.fit =>
    set x : ℚ := (iw : ℚ) * ((ph : ℚ) / (ih : ℚ)) with hx_def
    have hx0 : 0 ≤ x := by positivity
    refine ⟨_, _, calc_fit_tall iw ih pw ph (ne_of_gt hih) (ne_of_gt hph) hb,
      calc_real_fit_tall _ _ _ _ (ne_of_gt hihq) (ne_of_gt hphq) hb, ?_, ?_, ?_, ?_⟩
    · dsimp only
      rw [py_int_of_nonneg x hx0]
      exact floor_close x
    · dsimp only
      rw [sub_self, abs_zero]
      norm_num
    · dsimp only
      rw [py_int_of_nonneg x hx0]
      exact fdiv_sub_floor_close pw x
    · dsimp only
      norm_num

/-- The exact scale computation commutes with scaling both paper
dimensions by a positive factor. -/
lemma calc_real_scales (iw ih pw ph k : ℚ) (m : ScaleMode)
    (hiw : iw ≠ 0) (hih : ih ≠ 0) (hph : ph ≠ 0) (hk : 0 < k) :
    ∃ r : ScaledGeometryR,
      calc_scaling_real iw ih pw ph m = .ok r ∧
      calc_scaling_real iw ih (k * pw) (k * ph) m =
        .ok ⟨k * r.scaled_w, k * r.scaled_h, k * r.x_offset, k * r.y_offset⟩ := by
  have hkph : k * ph ≠ 0 := mul_ne_zero (ne_of_gt hk) hph
  have hbr : (k * pw) / (k * ph) = pw / ph := mul_div_mul_left pw ph (ne_of_gt hk)
  by_cases hb : iw / ih > pw / ph <;> cases m
  case pos.fill =>
    refine ⟨_, calc_real_fill_wide iw ih pw ph hih hph hb, ?_⟩
    rw [calc_real_fill_wide iw ih (k * pw) (k * ph) hih hkph (by rw [hbr]; exact hb)]
    simp only [Except.ok.injEq, ScaledGeometryR.mk.injEq]
    refine ⟨?_, ?_, ?_, ?_⟩ <;> dsimp only <;> ring
  case pos.fit =>
    refine ⟨_, calc_real_fit_wide iw ih pw ph hih hph hiw hb, ?_⟩
    rw [calc_real_fit_wide iw ih (k * pw) (k * ph) hih hkph hiw (by rw [hbr]; exact hb)]
    simp only [Except.ok.injEq, ScaledGeometryR.mk.injEq]
    refine ⟨?_, ?_, ?_, ?_⟩ <;> dsimp only <;> ring
  case neg.fill =>
    refine ⟨_, calc_real_fill_tall iw ih pw ph hih hph hiw hb, ?_⟩
    rw [calc_real_fill_tall iw ih (k * pw) (k * ph) hih hkph hiw (by rw [hbr]; exact hb)]
    simp only [Except.ok.injEq, ScaledGeometryR.mk.injEq]
    refine ⟨?_, ?_, ?_, ?_⟩ <;> dsimp only <;> ring
  case neg.fit =>
    refine ⟨_, calc_real_fit_tall iw ih pw ph hih hph hb, ?_⟩
    rw [calc_real_fit_tall iw ih (k * pw) (k * ph) hih hkph (by rw [hbr]; exact hb)]
    simp only [Except.ok.injEq, ScaledGeometryR.mk.injEq]
    refine ⟨?_, ?_, ?_, ?_⟩ <;> dsimp only <;> ring

/-- Triangle bound: a component within one of an exact value, whose scaled
exact value the second component is within one of, differs from the scaled
first component by less than 1 + k. -/
lemma rounding_scale_bound (g2 r2 g1 r1 k : ℚ) (hk : 0 < k)
    (h2 : |g2 - r2| < 1) (h1 : |g1 - r1| < 1) (hs : r2 = k * r1) :
    |g2 - k * g1| < 1 + k := by
  have h4 : |r1 - g1| < 1 := by
    rw [abs_sub_comm]
    exact h1
  have h3 : |k * r1 - k * g1| = k * |r1 - g1| := by
    rw [← mul_sub, abs_mul, abs_of_pos hk]
  have h5 : |g2 - k * g1| ≤ |g2 - r2| + |k * r1 - k * g1| := by
    have := abs_add (g2 - r2) (k * r1 - k * g1)
    rw [hs]
    calc |g2 - k * g1| = |(g2 - k * r1) + (k * r1 - k * g1)| := by ring_nf
    _ ≤ |g2 - k * r1| + |k * r1 - k * g1| := abs_add _ _
  have h6 : k * |r1 - g1| < k * 1 := by
    exact mul_lt_mul_of_pos_left h4 hk
  nlinarith [abs_nonneg (g2 - r2), abs_nonneg (r1 - g1)]

/-- C5: scaling both canvas dimensions by a positive factor k leaves the
rotation decision and the crop/border branch unchanged and scales the
exact geometry by exactly k; the integer geometry follows its exact
companion within one unit per component, so each of its components is
within 1 + k of k times the original component: the runs agree up to
rounding only. -/
theorem c5_resolution_independence
    (img_width img_height paper_w paper_h paper_w2 paper_h2 : ℤ) (k : ℚ) (mode : ScaleMode)
    (hiw : 0 < img_width) (hih : 0 < img_height)
    (hpw : 0 < paper_w) (hph : 0 < paper_h) (hk : 0 < k)
    (h2w : (paper_w2 : ℚ) = k * paper_w) (h2h : (paper_h2 : ℚ) = k * paper_h) :
    ∃ (g1 g2 : Geometry) (r1 r2 : GeometryR),
      get_print_pixmap_geom img_width img_height paper_w paper_h mode = .ok g1 ∧
      get_print_pixmap_geom img_width img_height paper_w2 paper_h2 mode = .ok g2 ∧
      get_print_pixmap_geom_real (img_width : ℚ) (img_height : ℚ)
        (paper_w : ℚ) (paper_h : ℚ) mode = .ok r1 ∧
      get_print_pixmap_geom_real (img_width : ℚ) (img_height : ℚ)
        (paper_w2 : ℚ) (paper_h2 : ℚ) mode = .ok r2 ∧
      g1.rotate_image_90 = g2.rotate_image_90 ∧
      r1.rotate_image_90 = g1.rotate_image_90 ∧
      (((img_width : ℚ) / img_height >
          (working_w img_width img_height paper_w2 paper_h2 : ℚ) /
            (working_h img_width img_height paper_w2 paper_h2 : ℚ)) ↔
        ((img_width : ℚ) / img_height >
          (working_w img_width img_height paper_w paper_h : ℚ) /
            (working_h img_width img_height paper_w paper_h : ℚ))) ∧
      r2.scaled_w = k * r1.scaled_w ∧ r2.scaled_h = k * r1.scaled_h ∧
      r2.x_offset = k * r1.x_offset ∧ r2.y_offset = k * r1.y_offset ∧
      |(g1.scaled_w : ℚ) - r1.scaled_w| < 1 ∧ |(g1.scaled_h : ℚ) - r1.scaled_h| < 1 ∧
      |(g1.x_offset : ℚ) - r1.x_offset| < 1 ∧ |(g1.y_offset : ℚ) - r1.y_offset| < 1 ∧
      |(g2.scaled_w : ℚ) - k * (g1.scaled_w : ℚ)| < 1 + k ∧
      |(g2.scaled_h : ℚ) - k * (g1.scaled_h : ℚ)| < 1 + k ∧
      |(g2.x_offset : ℚ) - k * (g1.x_offset : ℚ)| < 1 + k ∧
      |(g2.y_offset : ℚ) - k * (g1.y_offset : ℚ)| < 1 + k := by
  set ww1 := working_w img_width img_height paper_w paper_h with hww1_def
  set wh1 := working_h img_width img_height paper_w paper_h with hwh1_def
  set ww2 := working_w img_width img_height paper_w2 paper_h2 with hww2_def
  set wh2 := working_h img_width img_height paper_w2 paper_h2 with hwh2_def
  have hpw2 : 0 < paper_w2 := by
    have : (0 : ℚ) < (paper_w2 : ℚ) := by
      rw [h2w]
      have : (0 : ℚ) < (paper_w : ℚ) := by exact_mod_cast hpw
      positivity
    exact_mod_cast this
  have hph2 : 0 < paper_h2 := by
    have : (0 : ℚ) < (paper_h2 : ℚ) := by
      rw [h2h]
      have : (0 : ℚ) < (paper_h : ℚ) := by exact_mod_cast hph
      positivity
    exact_mod_cast this
  have hww1 : 0 < ww1 := working_w_pos img_width img_height paper_w paper_h hpw hph
  have hwh1 : 0 < wh1 := working_h_pos img_width img_height paper_w paper_h hpw hph
  have hww2 : 0 < ww2 := working_w_pos img_width img_height paper_w2 paper_h2 hpw2 hph2
  have hwh2 : 0 < wh2 := working_h_pos img_width img_height paper_w2 paper_h2 hpw2 hph2
  have hiwq : (0 : ℚ) < (img_width : ℚ) := by exact_mod_cast hiw
  have hihq : (0 : ℚ) < (img_height : ℚ) := by exact_mod_cast hih
  have hww2k : (ww2 : ℚ) = k * (ww1 : ℚ) := by
    rw [hww2_def, hww1_def]
    unfold working_w
    split_ifs
    · exact h2h
    · exact h2w
  have hwh2k : (wh2 : ℚ) = k * (wh1 : ℚ) := by
    rw [hwh2_def, hwh1_def]
    unfold working_h
    split_ifs
    · exact h2w
    · exact h2h
  obtain ⟨s1, r1c, hs1, hr1c, b1w, b1h, b1x, b1y⟩ :=
    calc_bridge img_width img_height ww1 wh1 mode hiw hih hww1 hwh1
  obtain ⟨s2, r2c, hs2, hr2c, b2w, b2h, b2x, b2y⟩ :=
    calc_bridge img_width img_height ww2 wh2 mode hiw hih hww2 hwh2
  obtain ⟨r0, hr0, hr0k⟩ :=
    calc_real_scales (img_width : ℚ) (img_height : ℚ) (ww1 : ℚ) (wh1 : ℚ) k mode
      (ne_of_gt hiwq) (ne_of_gt hihq) (by exact_mod_cast ne_of_gt hwh1) hk
  have hinj1 : r0 = r1c := by
    rw [hr0] at hr1c
    injection hr1c
  have hinj2 : r2c =
      ⟨k * r0.scaled_w, k * r0.scaled_h, k * r0.x_offset, k * r0.y_offset⟩ := by
    rw [hww2k, hwh2k, hr0k] at hr2c
    injection hr2c with h
    exact h.symm
  refine ⟨⟨decide (img_width > img_height), s1.scaled_w, s1.scaled_h, s1.x_offset, s1.y_offset⟩,
    ⟨decide (img_width > img_height), s2.scaled_w, s2.scaled_h, s2.x_offset, s2.y_offset⟩,
    ⟨decide (img_width > img_height), r1c.scaled_w, r1c.scaled_h, r1c.x_offset, r1c.y_offset⟩,
    ⟨decide (img_width > img_height), r2c.scaled_w, r2c.scaled_h, r2c.x_offset, r2c.y_offset⟩,
    ?_, ?_, ?_, ?_, rfl, rfl, ?_, ?_, ?_, ?_, ?_, b1w, b1h, b1x, b1y, ?_, ?_, ?_, ?_⟩
  · rw [get_print_eq_calc, hs1]
    rfl
  · rw [get_print_eq_calc, hs2]
    rfl
  · rw [get_real_eq_calc_real_int, hr1c]
    rfl
  · rw [get_real_eq_calc_real_int, hr2c]
    rfl
  · rw [hww2k, hwh2k, mul_div_mul_left _ _ (ne_of_gt hk)]
  · dsimp only
    rw [hinj2, hinj1]
  · dsimp only
    rw [hinj2, hinj1]
  · dsimp only
    rw [hinj2, hinj1]
  · dsimp only
    rw [hinj2, hinj1]
  · exact rounding_scale_bound _ r2c.scaled_w _ r1c.scaled_w k hk b2w b1w
      (by rw [hinj2, hinj1])
  · exact rounding_scale_bound _ r2c.scaled_h _ r1c.scaled_h k hk b2h b1h
      (by rw [hinj2, hinj1])
  · exact rounding_scale_bound _ r2c.x_offset _ r1c.x_offset k hk b2x b1x
      (by rw [hinj2, hinj1])
  · exact rounding_scale_bound _ r2c.y_offset _ r1c.y_offset k hk b2y b1y
      (by rw [hinj2, hinj1])

/-- C5 witness: doubling the 600 x 900 canvas to 1200 x 1800 for the
800 x 1200 image in fill mode. -/
theorem c5_resolution_independence_witness :
    ∃ (g1 g2 : Geometry) (r1 r2 : GeometryR),
      get_print_pixmap_geom 800 1200 600 900 .fill = .ok g1 ∧
      get_print_pixmap_geom 800 1200 1200 1800 .fill = .ok g2 ∧
      get_print_pixmap_geom_real ((800 : ℤ) : ℚ) ((1200 : ℤ) : ℚ)
        ((600 : ℤ) : ℚ) ((900 : ℤ) : ℚ) .fill = .ok r1 ∧
      get_print_pixmap_geom_real ((800 : ℤ) : ℚ) ((1200 : ℤ) : ℚ)
        ((1200 : ℤ) : ℚ) ((1800 : ℤ) : ℚ) .fill = .ok r2 ∧
      g1.rotate_image_90 = g2.rotate_image_90 ∧
      r1.rotate_image_90 = g1.rotate_image_90 ∧
      ((((800 : ℤ) : ℚ) / ((1200 : ℤ) : ℚ) >
          (working_w 800 1200 1200 1800 : ℚ) / (working_h 800 1200 1200 1800 : ℚ)) ↔
        (((800 : ℤ) : ℚ) / ((1200 : ℤ) : ℚ) >
          (working_w 800 1200 600 900 : ℚ) / (working_h 800 1200 600 900 : ℚ))) ∧
      r2.scaled_w = 2 * r1.scaled_w ∧ r2.scaled_h = 2 * r1.scaled_h ∧
      r2.x_offset = 2 * r1.x_offset ∧ r2.y_offset = 2 * r1.y_offset ∧
      |(g1.scaled_w : ℚ) - r1.scaled_w| < 1 ∧ |(g1.scaled_h : ℚ) - r1.scaled_h| < 1 ∧
      |(g1.x_offset : ℚ) - r1.x_offset| < 1 ∧ |(g1.y_offset : ℚ) - r1.y_offset| < 1 ∧
      |(g2.scaled_w : ℚ) - 2 * (g1.scaled_w : ℚ)| < 1 + 2 ∧
      |(g2.scaled_h : ℚ) - 2 * (g1.scaled_h : ℚ)| < 1 + 2 ∧
      |(g2.x_offset : ℚ) - 2 * (g1.x_offset : ℚ)| < 1 + 2 ∧
      |(g2.y_offset : ℚ) - 2 * (g1.y_offset : ℚ)| < 1 + 2 :=
  c5_resolution_independence 800 1200 600 900 1200 1800 2 .fill (by norm_num)
    (by norm_num) (by norm_num) (by norm_num) (by norm_num) (by norm_num) (by norm_num)

end PyPrintPreview
